import Mathlib

set_option linter.unusedVariables false
set_option linter.unnecessarySeqFocus false

/-!
Verification of the PDF-to-Text batch conversion engine
(src/pdf_to_text_enterprise.py and src/pdf_to_text.py) against its
specification.

Shallow embedding conventions:
* a path is a list of components;
* the filesystem is a finite association list from file paths to file
  contents, together with a list of existing directory paths;
* the two concrete extraction strategies (PyMuPDF and pypdf) are external
  capabilities, modelled as parameters that return either extracted text
  or an error message (a raised exception);
* the process pool of `process_directory` is linearised: the
  `pool.imap_unordered` drain loop is modelled as a fold over the work
  list in list order.  The properties proved below concern aggregate
  counters and per-item behaviour; each item touches only its own output
  path, so the order of this fold does not affect them.
-/

namespace PdfToText

/-- A filesystem path, as its list of components (no separators). -/
abbrev FsPath := List String

/-- A filesystem: files (path and contents) plus directory paths. -/
structure FS where
  files : List (FsPath × String)
  dirs : List FsPath
deriving DecidableEq

/-- Contents of the file at `p`, if such a file exists. -/
def FS.fileContents (fs : FS) (p : FsPath) : Option String :=
  (fs.files.find? (fun e => decide (e.1 = p))).map (fun e => e.2)

/-- `output_file.exists()` for a file path. -/
def FS.fileExists (fs : FS) (p : FsPath) : Bool :=
  (fs.fileContents p).isSome

/-- `Path.is_dir()`. -/
def FS.isDir (fs : FS) (p : FsPath) : Bool :=
  fs.dirs.any (fun d => decide (d = p))

/-- `Path.exists()`: true for files and for directories. -/
def FS.pathExists (fs : FS) (p : FsPath) : Bool :=
  fs.fileExists p || fs.isDir p

/-- `output_file.write_text(text, ...)`: create or overwrite the file at
`p` with the given contents. -/
def FS.writeText (fs : FS) (p : FsPath) (text : String) : FS :=
  { fs with files := (p, text) :: fs.files.filter (fun e => !decide (e.1 = p)) }

/-- `d.mkdir(parents=True, exist_ok=True)`: afterwards `d` and every
ancestor of `d` exist as directories. -/
def FS.mkdirParents (fs : FS) (d : FsPath) : FS :=
  { fs with dirs := d.inits ++ fs.dirs }

/-- Index of the last occurrence of `c` in `cs` (Python `str.rfind`). -/
def rfindIdx (cs : List Char) (c : Char) : Option Nat :=
  match cs with
  | [] => none
  | a :: rest =>
    match rfindIdx rest c with
    | some i => some (i + 1)
    | none => if a = c then some 0 else none

/-- Python `PurePath.suffix` of a file name: the substring starting at the
last dot, provided that dot is neither the first nor the last character of
the name; otherwise the empty string. -/
def pySuffix (name : String) : String :=
  match rfindIdx name.data '.' with
  | some i =>
    if 0 < i ∧ i + 1 < name.data.length then String.mk (name.data.drop i) else ""
  | none => ""

/-- Python `PurePath.with_suffix` restricted to a file name: drop the old
suffix (if any) and append the new one. -/
def withSuffix (name sfx : String) : String :=
  let old := pySuffix name
  if old = "" then name ++ sfx
  else String.mk (name.data.take (name.data.length - old.data.length)) ++ sfx

/-- `relative.with_suffix(".txt")` lifted to a relative path: rewrite the
final component of the path. -/
def pathWithSuffix : FsPath → String → FsPath
  | [], _ => []
  | [n], sfx => [withSuffix n sfx]
  | n :: m :: rest, sfx => n :: pathWithSuffix (m :: rest) sfx

/-- `pdf_path.relative_to(input_root)`: the path below the root, or `none`
when the root is not a prefix (Python raises `ValueError` there). -/
def relative_to (p root : FsPath) : Option FsPath :=
  if root.isPrefixOf p then some (p.drop root.length) else none

/-- Final component of a path (`Path.name`), `""` for the empty path. -/
def lastName (p : FsPath) : String := p.getLast?.getD ""

/-- Does a file name match the document glob pattern, i.e. end in the
document extension (case-sensitively)? -/
def isPdfName (n : String) : Bool := List.isSuffixOf ".pdf".data n.data

/-- `input_dir.rglob("*.pdf")`: every file strictly below `root` whose
name matches the pattern. -/
def FS.rglobPdf (fs : FS) (root : FsPath) : List FsPath :=
  (fs.files.map (fun e => e.1)).filter
    (fun p => root.isPrefixOf p && !decide (p = root) && isPdfName (lastName p))

/-- An ASCII whitespace character (`str.isspace` on the characters that
`str.strip` removes). -/
def isSpaceChar (c : Char) : Bool :=
  c = ' ' || c = '\t' || c = '\n' || c = '\r' || c = '\x0b' || c = '\x0c'

/-- Python `str.strip()`: remove leading and trailing whitespace. -/
def pyStrip (s : String) : String :=
  String.mk (((s.data.dropWhile isSpaceChar).reverse.dropWhile isSpaceChar).reverse)

/-- The two extraction strategies of the source (`extract_with_pymupdf`
and `extract_with_pypdf`), as external capabilities: each takes a document
path and returns extracted text or fails (raises). -/
structure Extractors where
  pymupdf : FsPath → Except String String
  pypdf : FsPath → Except String String

/-- `MIN_TEXT_THRESHOLD`. -/
def MIN_TEXT_THRESHOLD : Nat := 50

/-- `extract_text`: invoke the primary strategy; when its output, stripped
of surrounding whitespace, is shorter than the threshold, invoke the
fallback strategy and return its output instead.  An error from either
strategy propagates unchanged. -/
def extract_text (ex : Extractors) (pdf_path : FsPath) : Except String String :=
  match ex.pymupdf pdf_path with
  | Except.error e => Except.error e
  | Except.ok text =>
    if (pyStrip text).length < MIN_TEXT_THRESHOLD then ex.pypdf pdf_path
    else Except.ok text

/-- `extract_text` instrumented with the list of strategies it invokes, in
invocation order. -/
def extract_text_traced (ex : Extractors) (pdf_path : FsPath) :
    Except String String × List String :=
  match ex.pymupdf pdf_path with
  | Except.error e => (Except.error e, ["pymupdf"])
  | Except.ok text =>
    if (pyStrip text).length < MIN_TEXT_THRESHOLD then (ex.pypdf pdf_path, ["pymupdf", "pypdf"])
    else (Except.ok text, ["pymupdf"])

/-- The worker's per-item result strings, as a closed variant. -/
inductive Outcome where
  | success
  | skipped
  | failed
deriving DecidableEq

/-- `process_file`: one worker handling one work item.  The `rel = []`
branch is the `ValueError` that Python's `with_suffix` raises on an empty
name (it occurs only when `pdf_path` equals the root); like every other
exception inside the worker it yields the `failed` outcome.  A failure
never mutates the filesystem; writing happens only after extraction has
succeeded, preceded by creation of the output file's parent directories. -/
def process_file (ex : Extractors) (fs : FS) (pdf_path input_root output_root : FsPath)
    (overwrite skip_existing : Bool) : Outcome × FS :=
  match relative_to pdf_path input_root with
  | none => (Outcome.failed, fs)
  | some rel =>
    if rel = [] then (Outcome.failed, fs)
    else
      let output_file := output_root ++ pathWithSuffix rel ".txt"
      if skip_existing && fs.fileExists output_file then (Outcome.skipped, fs)
      else if fs.fileExists output_file && !overwrite then (Outcome.skipped, fs)
      else
        match extract_text ex pdf_path with
        | Except.error _ => (Outcome.failed, fs)
        | Except.ok text =>
          (Outcome.success, (fs.mkdirParents output_file.dropLast).writeText output_file text)

/-- `process_file` instrumented with a flag recording whether
`extract_text` was invoked. -/
def process_file_traced (ex : Extractors) (fs : FS) (pdf_path input_root output_root : FsPath)
    (overwrite skip_existing : Bool) : Outcome × FS × Bool :=
  match relative_to pdf_path input_root with
  | none => (Outcome.failed, fs, false)
  | some rel =>
    if rel = [] then (Outcome.failed, fs, false)
    else
      let output_file := output_root ++ pathWithSuffix rel ".txt"
      if skip_existing && fs.fileExists output_file then (Outcome.skipped, fs, false)
      else if fs.fileExists output_file && !overwrite then (Outcome.skipped, fs, false)
      else
        match extract_text ex pdf_path with
        | Except.error _ => (Outcome.failed, fs, true)
        | Except.ok text =>
          (Outcome.success,
            (fs.mkdirParents output_file.dropLast).writeText output_file text, true)

/-- The printed summary counters of one run. -/
structure RunSummary where
  total : Nat
  success : Nat
  skipped : Nat
  failed : Nat
deriving DecidableEq

/-- `results[result] += 1`. -/
def countOutcome (r : RunSummary) : Outcome → RunSummary
  | Outcome.success => { r with success := r.success + 1 }
  | Outcome.skipped => { r with skipped := r.skipped + 1 }
  | Outcome.failed => { r with failed := r.failed + 1 }

/-- Draining the worker pool: process every work item, threading the
filesystem and counting each item's outcome. -/
def run_items (ex : Extractors) (input_root output_root : FsPath)
    (overwrite skip_existing : Bool) : List FsPath → RunSummary × FS → RunSummary × FS
  | [], st => st
  | p :: rest, st =>
    let res := process_file ex st.2 p input_root output_root overwrite skip_existing
    run_items ex input_root output_root overwrite skip_existing rest
      (countOutcome st.1 res.1, res.2)

/-- `process_directory` of the enterprise script: resolve the work list by
recursive glob; when it is empty, print a notice and return early without
a summary and without starting any workers; otherwise process every item
through the pool and return the summary that the source prints. -/
def process_directory (ex : Extractors) (fs : FS) (input_dir output_dir : FsPath)
    (workers : Nat) (overwrite skip_existing : Bool) : Option RunSummary × FS :=
  let pdf_files := fs.rglobPdf input_dir
  let total := pdf_files.length
  if total = 0 then (none, fs)
  else
    let st := run_items ex input_dir output_dir overwrite skip_existing pdf_files
      ({ total := total, success := 0, skipped := 0, failed := 0 }, fs)
    (some st.1, st.2)

/-- The output path a given input file maps to: the path relative to the
input root, re-rooted under the output root, with the extension replaced
by the text extension. -/
def outputPathFor (pdf_path input_root output_root : FsPath) : FsPath :=
  output_root ++ pathWithSuffix (pdf_path.drop input_root.length) ".txt"

namespace Simple

/-- One loop iteration of the simple script (src/pdf_to_text.py):
extraction happens first, then the output path is computed and the text
written; any exception is logged and leaves the filesystem unchanged,
and the loop continues with the next file. -/
def process_one (ex : Extractors) (input_dir output_dir : FsPath) (fs : FS)
    (pdf_file : FsPath) : FS :=
  match extract_text ex pdf_file with
  | Except.error _ => fs
  | Except.ok text =>
    match relative_to pdf_file input_dir with
    | none => fs
    | some rel =>
      if rel = [] then fs
      else
        let output_file := output_dir ++ pathWithSuffix rel ".txt"
        (fs.mkdirParents output_file.dropLast).writeText output_file text

/-- `process_directory` of the simple script: abort (`sys.exit(1)`) when
the input root does not exist or is not a directory; otherwise create the
output root and process every matching file sequentially. -/
def process_directory (ex : Extractors) (fs : FS) (input_dir output_dir : FsPath) :
    Except String FS :=
  if fs.pathExists input_dir = false then
    Except.error "Error: Input directory does not exist."
  else if fs.isDir input_dir = false then
    Except.error "Error: Input path must be a directory."
  else
    let fs1 := fs.mkdirParents output_dir
    Except.ok ((fs1.rglobPdf input_dir).foldl (process_one ex input_dir output_dir) fs1)

end Simple

/-- The non-interactive path of the enterprise script's `main`: abort when
either required argument is missing, or when the input root does not exist
(`is_dir` is not checked there); otherwise create the output root and run
`process_directory`. -/
def main (ex : Extractors) (fs : FS) (input output : Option FsPath) (workers : Nat)
    (overwrite skip_existing : Bool) : Except String (Option RunSummary × FS) :=
  match input, output with
  | some input_dir, some output_dir =>
    if fs.pathExists input_dir = false then
      Except.error "Input directory does not exist."
    else
      let fs1 := fs.mkdirParents output_dir
      Except.ok (process_directory ex fs1 input_dir output_dir workers overwrite skip_existing)
  | _, _ => Except.error "usage"

/-- Did a run abort with a fatal pre-run error? -/
def isErr {α : Type} (e : Except String α) : Bool :=
  match e with
  | Except.error _ => true
  | Except.ok _ => false

theorem mk_data (s : String) : String.mk s.data = s := by
  cases s
  rfl

theorem data_append (s t : String) : (s ++ t).data = s.data ++ t.data := rfl

theorem isPrefixOf_append_self (l r : List String) : l.isPrefixOf (l ++ r) = true := by
  induction l with
  | nil => simp [List.isPrefixOf]
  | cons a as ih => simp [List.isPrefixOf, ih]

theorem eq_append_drop_of_isPrefixOf :
    ∀ (l p : List String), l.isPrefixOf p = true → p = l ++ p.drop l.length := by
  intro l
  induction l with
  | nil =>
    intro p _
    rfl
  | cons a as ih =>
    intro p hp
    cases p with
    | nil => simp [List.isPrefixOf] at hp
    | cons b bs =>
      simp only [List.isPrefixOf, Bool.and_eq_true, beq_iff_eq] at hp
      obtain ⟨hab, hrest⟩ := hp
      simpa [hab] using ih bs hrest

theorem relative_to_some (p root : FsPath) (h : root.isPrefixOf p = true) :
    relative_to p root = some (p.drop root.length) := by
  simp [relative_to, h]

theorem relative_to_append (l r : List String) : relative_to (l ++ r) l = some r := by
  simp [relative_to, isPrefixOf_append_self, List.drop_left]

theorem fileContents_writeText_self (fs : FS) (p : FsPath) (t : String) :
    (fs.writeText p t).fileContents p = some t := by
  simp [FS.writeText, FS.fileContents, List.find?]

theorem find?_filter_ne (l : List (FsPath × String)) (p q : FsPath) (h : q ≠ p) :
    (l.filter (fun e => !decide (e.1 = p))).find? (fun e => decide (e.1 = q))
      = l.find? (fun e => decide (e.1 = q)) := by
  have h2 : ¬(p = q) := fun hh => h hh.symm
  induction l with
  | nil => rfl
  | cons a l ih =>
    by_cases hap : a.1 = p
    · have haq : ¬(a.1 = q) := by
        rw [hap]
        exact h2
      simp [List.filter, hap, List.find?, haq, h, h2, ih]
    · by_cases haq : a.1 = q
      · simp [List.filter, hap, List.find?, haq, h, h2]
      · simp [List.filter, hap, List.find?, haq, h, h2, ih]

theorem fileContents_writeText_ne (fs : FS) (p q : FsPath) (t : String) (h : q ≠ p) :
    (fs.writeText p t).fileContents q = fs.fileContents q := by
  have h2 : ¬(p = q) := fun hh => h hh.symm
  simp [FS.writeText, FS.fileContents, List.find?, h2, find?_filter_ne _ _ _ h]

theorem fileExists_writeText_self (fs : FS) (p : FsPath) (t : String) :
    (fs.writeText p t).fileExists p = true := by
  simp [FS.fileExists, fileContents_writeText_self]

theorem fileExists_writeText_ne (fs : FS) (p q : FsPath) (t : String) (h : q ≠ p) :
    (fs.writeText p t).fileExists q = fs.fileExists q := by
  simp [FS.fileExists, fileContents_writeText_ne _ _ _ _ h]

theorem fileContents_mkdirParents (fs : FS) (d p : FsPath) :
    (fs.mkdirParents d).fileContents p = fs.fileContents p := rfl

theorem fileExists_mkdirParents (fs : FS) (d p : FsPath) :
    (fs.mkdirParents d).fileExists p = fs.fileExists p := rfl

theorem isDir_writeText (fs : FS) (p q : FsPath) (t : String) :
    (fs.writeText p t).isDir q = fs.isDir q := rfl

theorem isDir_mkdirParents_self (fs : FS) (d : FsPath) :
    (fs.mkdirParents d).isDir d = true := by
  simp only [FS.mkdirParents, FS.isDir, List.any_eq_true, List.mem_append]
  exact ⟨d, Or.inl ((List.mem_inits _ _).2 (List.prefix_refl d)), by simp⟩

theorem extract_text_eq_traced (ex : Extractors) (p : FsPath) :
    extract_text ex p = (extract_text_traced ex p).1 := by
  cases h : ex.pymupdf p <;> simp [extract_text, extract_text_traced, h]
  split <;> rfl

theorem process_file_eq_traced (ex : Extractors) (fs : FS) (pdf irt ort : FsPath)
    (ov sk : Bool) :
    process_file ex fs pdf irt ort ov sk =
      ((process_file_traced ex fs pdf irt ort ov sk).1,
       (process_file_traced ex fs pdf irt ort ov sk).2.1) := by
  unfold process_file process_file_traced
  cases relative_to pdf irt with
  | none => rfl
  | some rel =>
    by_cases h0 : rel = [] <;> simp [h0]
    split_ifs <;> try rfl
    cases hE : extract_text ex pdf <;> simp [hE]

theorem process_file_traced_skip_skipExisting (ex : Extractors) (fs : FS)
    (pdf irt ort : FsPath) (ov : Bool)
    (hpre : irt.isPrefixOf pdf = true) (hrel : pdf.drop irt.length ≠ [])
    (hex : fs.fileExists (outputPathFor pdf irt ort) = true) :
    process_file_traced ex fs pdf irt ort ov true = (Outcome.skipped, fs, false) := by
  simp only [outputPathFor] at hex
  simp [process_file_traced, relative_to_some _ _ hpre, hrel, hex]

theorem process_file_traced_skip_noOverwrite (ex : Extractors) (fs : FS)
    (pdf irt ort : FsPath) (sk : Bool)
    (hpre : irt.isPrefixOf pdf = true) (hrel : pdf.drop irt.length ≠ [])
    (hex : fs.fileExists (outputPathFor pdf irt ort) = true) :
    process_file_traced ex fs pdf irt ort false sk = (Outcome.skipped, fs, false) := by
  simp only [outputPathFor] at hex
  cases sk <;> simp [process_file_traced, relative_to_some _ _ hpre, hrel, hex]

theorem process_file_traced_success (ex : Extractors) (fs : FS)
    (pdf irt ort : FsPath) (ov sk : Bool)
    (hpre : irt.isPrefixOf pdf = true) (hrel : pdf.drop irt.length ≠ [])
    (h1 : (sk && fs.fileExists (outputPathFor pdf irt ort)) = false)
    (h2 : (fs.fileExists (outputPathFor pdf irt ort) && !ov) = false)
    (t : String) (hok : extract_text ex pdf = Except.ok t) :
    process_file_traced ex fs pdf irt ort ov sk =
      (Outcome.success,
        (fs.mkdirParents (outputPathFor pdf irt ort).dropLast).writeText
          (outputPathFor pdf irt ort) t, true) := by
  simp only [outputPathFor] at h1 h2 ⊢
  simp [process_file_traced, relative_to_some _ _ hpre, hrel, h1, h2, hok]

theorem process_file_traced_failed (ex : Extractors) (fs : FS)
    (pdf irt ort : FsPath) (ov sk : Bool)
    (hpre : irt.isPrefixOf pdf = true) (hrel : pdf.drop irt.length ≠ [])
    (h1 : (sk && fs.fileExists (outputPathFor pdf irt ort)) = false)
    (h2 : (fs.fileExists (outputPathFor pdf irt ort) && !ov) = false)
    (e : String) (herr : extract_text ex pdf = Except.error e) :
    process_file_traced ex fs pdf irt ort ov sk = (Outcome.failed, fs, true) := by
  simp only [outputPathFor] at h1 h2
  simp [process_file_traced, relative_to_some _ _ hpre, hrel, h1, h2, herr]

theorem process_file_skip_skipExisting (ex : Extractors) (fs : FS)
    (pdf irt ort : FsPath) (ov : Bool)
    (hpre : irt.isPrefixOf pdf = true) (hrel : pdf.drop irt.length ≠ [])
    (hex : fs.fileExists (outputPathFor pdf irt ort) = true) :
    process_file ex fs pdf irt ort ov true = (Outcome.skipped, fs) := by
  rw [process_file_eq_traced,
    process_file_traced_skip_skipExisting ex fs pdf irt ort ov hpre hrel hex]

theorem process_file_success (ex : Extractors) (fs : FS)
    (pdf irt ort : FsPath) (ov sk : Bool)
    (hpre : irt.isPrefixOf pdf = true) (hrel : pdf.drop irt.length ≠ [])
    (h1 : (sk && fs.fileExists (outputPathFor pdf irt ort)) = false)
    (h2 : (fs.fileExists (outputPathFor pdf irt ort) && !ov) = false)
    (t : String) (hok : extract_text ex pdf = Except.ok t) :
    process_file ex fs pdf irt ort ov sk =
      (Outcome.success,
        (fs.mkdirParents (outputPathFor pdf irt ort).dropLast).writeText
          (outputPathFor pdf irt ort) t) := by
  rw [process_file_eq_traced,
    process_file_traced_success ex fs pdf irt ort ov sk hpre hrel h1 h2 t hok]

theorem process_file_failed (ex : Extractors) (fs : FS)
    (pdf irt ort : FsPath) (ov sk : Bool)
    (hpre : irt.isPrefixOf pdf = true) (hrel : pdf.drop irt.length ≠ [])
    (h1 : (sk && fs.fileExists (outputPathFor pdf irt ort)) = false)
    (h2 : (fs.fileExists (outputPathFor pdf irt ort) && !ov) = false)
    (e : String) (herr : extract_text ex pdf = Except.error e) :
    process_file ex fs pdf irt ort ov sk = (Outcome.failed, fs) := by
  rw [process_file_eq_traced,
    process_file_traced_failed ex fs pdf irt ort ov sk hpre hrel h1 h2 e herr]

theorem run_items_total (ex : Extractors) (irt ort : FsPath) (ov sk : Bool) :
    ∀ (items : List FsPath) (st : RunSummary × FS),
      (run_items ex irt ort ov sk items st).1.total = st.1.total := by
  intro items
  induction items with
  | nil =>
    intro st
    rfl
  | cons p rest ih =>
    intro st
    simp only [run_items]
    rw [ih]
    cases (process_file ex st.2 p irt ort ov sk).1 <;> rfl

theorem run_items_sum (ex : Extractors) (irt ort : FsPath) (ov sk : Bool) :
    ∀ (items : List FsPath) (st : RunSummary × FS),
      (run_items ex irt ort ov sk items st).1.success
        + (run_items ex irt ort ov sk items st).1.skipped
        + (run_items ex irt ort ov sk items st).1.failed
      = st.1.success + st.1.skipped + st.1.failed + items.length := by
  intro items
  induction items with
  | nil =>
    intro st
    simp [run_items]
  | cons p rest ih =>
    intro st
    simp only [run_items]
    rw [ih]
    cases (process_file ex st.2 p irt ort ov sk).1 <;>
      simp [countOutcome, List.length_cons] <;> omega

theorem run_items_all_skipped (ex : Extractors) (irt ort : FsPath) (ov : Bool) :
    ∀ (items : List FsPath) (fs : FS) (r : RunSummary),
      (∀ p ∈ items, irt.isPrefixOf p = true ∧ p.drop irt.length ≠ [] ∧
        fs.fileExists (outputPathFor p irt ort) = true) →
      run_items ex irt ort ov true items (r, fs)
        = ({ r with skipped := r.skipped + items.length }, fs) := by
  intro items
  induction items with
  | nil =>
    intro fs r _
    simp [run_items]
  | cons p rest ih =>
    intro fs r h
    obtain ⟨h1, h2, h3⟩ := h p (List.mem_cons_self p rest)
    simp only [run_items]
    rw [process_file_skip_skipExisting ex fs p irt ort ov h1 h2 h3]
    simp only [countOutcome]
    rw [ih fs _ (fun q hq => h q (List.mem_cons_of_mem p hq))]
    simp only [Prod.mk.injEq, RunSummary.mk.injEq, List.length_cons, true_and, and_true]
    omega

theorem run_items_all_success (ex : Extractors) (irt ort : FsPath) (ov sk : Bool) :
    ∀ (items : List FsPath) (fs : FS) (r : RunSummary),
      (∀ p ∈ items, irt.isPrefixOf p = true ∧ p.drop irt.length ≠ [] ∧
        fs.fileExists (outputPathFor p irt ort) = false) →
      items.Pairwise (fun p q => outputPathFor p irt ort ≠ outputPathFor q irt ort) →
      (∀ p ∈ items, ∃ t, extract_text ex p = Except.ok t) →
      (run_items ex irt ort ov sk items (r, fs)).1
        = { r with success := r.success + items.length } := by
  intro items
  induction items with
  | nil =>
    intro fs r _ _ _
    simp [run_items]
  | cons p rest ih =>
    intro fs r h hpair hok
    obtain ⟨h1, h2, h3⟩ := h p (List.mem_cons_self p rest)
    obtain ⟨t, ht⟩ := hok p (List.mem_cons_self p rest)
    rw [List.pairwise_cons] at hpair
    obtain ⟨hhead, hrest⟩ := hpair
    simp only [run_items]
    rw [process_file_success ex fs p irt ort ov sk h1 h2 (by simp [h3]) (by simp [h3]) t ht]
    simp only [countOutcome]
    rw [ih _ _ ?hfs hrest (fun q hq => hok q (List.mem_cons_of_mem p hq))]
    case hfs =>
      intro q hq
      obtain ⟨g1, g2, g3⟩ := h q (List.mem_cons_of_mem p hq)
      refine ⟨g1, g2, ?_⟩
      rw [fileExists_writeText_ne _ _ _ _ (Ne.symm (hhead q hq)),
        fileExists_mkdirParents]
      exact g3
    simp only [RunSummary.mk.injEq, List.length_cons, true_and, and_true]
    omega

theorem run_items_one_failed (ex : Extractors) (irt ort : FsPath) (ov sk : Bool)
    (bad : FsPath) (e : String) (herr : extract_text ex bad = Except.error e) :
    ∀ (items : List FsPath) (fs : FS) (r : RunSummary),
      (∀ p ∈ items, irt.isPrefixOf p = true ∧ p.drop irt.length ≠ [] ∧
        fs.fileExists (outputPathFor p irt ort) = false) →
      items.Pairwise (fun p q => outputPathFor p irt ort ≠ outputPathFor q irt ort) →
      (∀ p ∈ items, p ≠ bad → ∃ t, extract_text ex p = Except.ok t) →
      items.count bad = 1 →
      (run_items ex irt ort ov sk items (r, fs)).1
        = { r with success := r.success + (items.length - 1), failed := r.failed + 1 } := by
  intro items
  induction items with
  | nil =>
    intro fs r _ _ _ hcount
    simp [List.count_nil] at hcount
  | cons p rest ih =>
    intro fs r h hpair hok hcount
    obtain ⟨h1, h2, h3⟩ := h p (List.mem_cons_self p rest)
    rw [List.pairwise_cons] at hpair
    obtain ⟨hhead, hrest⟩ := hpair
    by_cases hpb : p = bad
    · subst hpb
      have hrest0 : rest.count p = 0 := by
        simp [List.count_cons] at hcount
        omega
      have hnotmem : p ∉ rest := by
        rw [← List.count_eq_zero]
        exact hrest0
      simp only [run_items]
      rw [process_file_failed ex fs p irt ort ov sk h1 h2 (by simp [h3]) (by simp [h3]) e herr]
      simp only [countOutcome]
      rw [run_items_all_success ex irt ort ov sk rest fs _
        (fun q hq => h q (List.mem_cons_of_mem p hq)) hrest
        (fun q hq => hok q (List.mem_cons_of_mem p hq) (fun hqp => hnotmem (hqp ▸ hq)))]
      simp only [RunSummary.mk.injEq, List.length_cons, true_and, and_true]
      omega
    · obtain ⟨t, ht⟩ := hok p (List.mem_cons_self p rest) hpb
      have hcount' : rest.count bad = 1 := by
        simp [List.count_cons, hpb] at hcount
        simpa using hcount
      have hmem : bad ∈ rest := by
        rw [← List.count_pos_iff]
        omega
      have hlen : 0 < rest.length := by
        rw [List.length_pos]
        intro hnil
        rw [hnil] at hmem
        simp at hmem
      simp only [run_items]
      rw [process_file_success ex fs p irt ort ov sk h1 h2 (by simp [h3]) (by simp [h3]) t ht]
      simp only [countOutcome]
      rw [ih _ _ ?hfs hrest (fun q hq => hok q (List.mem_cons_of_mem p hq)) hcount']
      case hfs =>
        intro q hq
        obtain ⟨g1, g2, g3⟩ := h q (List.mem_cons_of_mem p hq)
        refine ⟨g1, g2, ?_⟩
        rw [fileExists_writeText_ne _ _ _ _ (Ne.symm (hhead q hq)),
          fileExists_mkdirParents]
        exact g3
      simp only [RunSummary.mk.injEq, List.length_cons, true_and, and_true]
      omega

theorem data_ne_nil (s : String) (h : s ≠ "") : s.data ≠ [] := by
  intro hnil
  apply h
  cases s
  exact congrArg String.mk hnil

theorem rfindIdx_append_some (l2 : List Char) (c : Char) (i : Nat)
    (h : rfindIdx l2 c = some i) :
    ∀ l1 : List Char, rfindIdx (l1 ++ l2) c = some (l1.length + i) := by
  intro l1
  induction l1 with
  | nil => simpa using h
  | cons a l ih =>
    show (match rfindIdx (l ++ l2) c with
      | some j => some (j + 1)
      | none => if a = c then some 0 else none) = some ((a :: l).length + i)
    rw [ih]
    simp only [List.length_cons]
    congr 1
    omega

theorem pySuffix_append_pdf (stem : String) (h : stem ≠ "") :
    pySuffix (stem ++ ".pdf") = ".pdf" := by
  have hlen : 0 < stem.data.length := List.length_pos.2 (data_ne_nil stem h)
  have hd : (stem ++ ".pdf").data = stem.data ++ '.' :: 'p' :: 'd' :: 'f' :: [] := rfl
  have hfind : rfindIdx (stem.data ++ '.' :: 'p' :: 'd' :: 'f' :: []) '.'
      = some (stem.data.length + 0) :=
    rfindIdx_append_some ('.' :: 'p' :: 'd' :: 'f' :: []) '.' 0 rfl stem.data
  simp only [pySuffix, hd, hfind]
  have hcond : 0 < stem.data.length + 0 ∧ stem.data.length + 0 + 1
      < (stem.data ++ '.' :: 'p' :: 'd' :: 'f' :: []).length := by
    simp only [List.length_append, List.length_cons, List.length_nil]
    omega
  rw [if_pos hcond, Nat.add_zero, List.drop_left]

theorem take_append_sub (l r : List Char) :
    (l ++ r).take ((l ++ r).length - r.length) = l := by
  have hlen : (l ++ r).length - r.length = l.length := by
    simp [List.length_append]
  rw [hlen, List.take_left]

theorem withSuffix_pdf_txt (stem : String) (h : stem ≠ "") :
    withSuffix (stem ++ ".pdf") ".txt" = stem ++ ".txt" := by
  simp only [withSuffix, pySuffix_append_pdf stem h]
  rw [if_neg (by simp)]
  have hd : (stem ++ ".pdf").data = stem.data ++ String.data ".pdf" := rfl
  rw [hd, take_append_sub, mk_data]

theorem pathWithSuffix_append_single (n sfx : String) :
    ∀ l : FsPath, pathWithSuffix (l ++ [n]) sfx = l ++ [withSuffix n sfx] := by
  intro l
  induction l with
  | nil => rfl
  | cons a l ih =>
    cases l with
    | nil => rfl
    | cons b bs =>
      show a :: pathWithSuffix ((b :: bs) ++ [n]) sfx = a :: ((b :: bs) ++ [withSuffix n sfx])
      rw [ih]

theorem outputPathFor_append (irt ort sub : FsPath) (stem : String) (h : stem ≠ "") :
    outputPathFor (irt ++ (sub ++ [stem ++ ".pdf"])) irt ort
      = ort ++ (sub ++ [stem ++ ".txt"]) := by
  simp only [outputPathFor, List.drop_left, pathWithSuffix_append_single,
    withSuffix_pdf_txt stem h]

theorem process_directory_none (ex : Extractors) (fs : FS) (idir odir : FsPath)
    (w : Nat) (ov sk : Bool) (hempty : fs.rglobPdf idir = []) :
    process_directory ex fs idir odir w ov sk = (none, fs) := by
  simp [process_directory, hempty]

theorem process_directory_some (ex : Extractors) (fs : FS) (idir odir : FsPath)
    (w : Nat) (ov sk : Bool) (hne : fs.rglobPdf idir ≠ []) :
    process_directory ex fs idir odir w ov sk =
      (some (run_items ex idir odir ov sk (fs.rglobPdf idir)
          ({ total := (fs.rglobPdf idir).length, success := 0, skipped := 0, failed := 0 },
            fs)).1,
        (run_items ex idir odir ov sk (fs.rglobPdf idir)
          ({ total := (fs.rglobPdf idir).length, success := 0, skipped := 0, failed := 0 },
            fs)).2) := by
  have hlen : ¬((fs.rglobPdf idir).length = 0) := by
    simp only [List.length_eq_zero]
    exact hne
  simp [process_directory, hlen]

theorem mem_rglobPdf (fs : FS) (root p : FsPath) (h : p ∈ fs.rglobPdf root) :
    root.isPrefixOf p = true ∧ p ≠ root ∧ isPdfName (lastName p) = true := by
  simp only [FS.rglobPdf, List.mem_filter, Bool.and_eq_true, Bool.not_eq_true',
    decide_eq_false_iff_not] at h
  exact ⟨h.2.1.1, h.2.1.2, h.2.2⟩

theorem rel_of_mem_rglobPdf (fs : FS) (root p : FsPath) (h : p ∈ fs.rglobPdf root) :
    root.isPrefixOf p = true ∧ p.drop root.length ≠ [] := by
  obtain ⟨h1, h2, _⟩ := mem_rglobPdf fs root p h
  refine ⟨h1, ?_⟩
  intro hnil
  have hsplit := eq_append_drop_of_isPrefixOf root p h1
  rw [hnil] at hsplit
  simp at hsplit
  exact h2 hsplit

/-- A primary strategy returning short text, a fallback returning a
distinctive marker: drives the fallback branch. -/
def exFallback : Extractors :=
  ⟨fun _ => Except.ok "hi", fun _ => Except.ok "FALLBACK"⟩

/-- A 55-character extraction result, above the threshold. -/
def longText : String :=
  "0123456789012345678901234567890123456789012345678901234"

/-- A primary strategy whose output is long enough that the fallback is
never consulted. -/
def exLong : Extractors :=
  ⟨fun _ => Except.ok longText, fun _ => Except.error "unused"⟩

/-- Both strategies fail on every document. -/
def exErr : Extractors :=
  ⟨fun _ => Except.error "boom", fun _ => Except.error "boom"⟩

/-- The primary strategy fails on exactly one document and returns long
text on every other. -/
def exOneBad : Extractors :=
  ⟨fun p => if p = ["in", "bad.pdf"] then Except.error "boom" else Except.ok longText,
    fun _ => Except.error "unused"⟩

/-- One input document, no outputs yet. -/
def fsOnePdf : FS := ⟨[(["in", "a.pdf"], "blob")], [["in"], ["out"]]⟩

/-- One input document whose output file already exists. -/
def fsProcessed : FS :=
  ⟨[(["in", "a.pdf"], "blob"), (["out", "a.txt"], "old")], [["in"], ["out"]]⟩

/-- No files at all. -/
def fsEmpty : FS := ⟨[], [["in"], ["out"]]⟩

/-- Two input documents, no outputs yet. -/
def fsTwoPdf : FS :=
  ⟨[(["in", "bad.pdf"], "b1"), (["in", "good.pdf"], "b2")], [["in"]]⟩

/-- The input root path exists but is a file, not a directory. -/
def fsInputFile : FS := ⟨[(["in"], "data")], [[]]⟩

/-- C1: at run completion of `process_directory`, whenever a summary is
produced, its counters satisfy `total = success + skipped + failed`: every
resolved work item contributes exactly one outcome, counted in exactly one
of the three counters. -/
theorem C1_total_eq_sum (ex : Extractors) (fs : FS) (idir odir : FsPath)
    (w : Nat) (ov sk : Bool) (r : RunSummary)
    (h : (process_directory ex fs idir odir w ov sk).1 = some r) :
    r.total = r.success + r.skipped + r.failed := by
  by_cases hempty : fs.rglobPdf idir = []
  · rw [process_directory_none ex fs idir odir w ov sk hempty] at h
    simp at h
  · rw [process_directory_some ex fs idir odir w ov sk hempty] at h
    simp only [Option.some.injEq] at h
    rw [← h, run_items_total, run_items_sum]
    simp

/-- C1 witness: a concrete one-item run produces the summary
`⟨1, 1, 0, 0⟩`, whose counters satisfy the invariant. -/
theorem C1_total_eq_sum_witness :
    (process_directory exLong fsOnePdf ["in"] ["out"] 4 false false).1
      = some { total := 1, success := 1, skipped := 0, failed := 0 } ∧
    (1 : Nat) = 1 + 0 + 0 :=
  ⟨rfl, C1_total_eq_sum exLong fsOnePdf ["in"] ["out"] 4 false false
    { total := 1, success := 1, skipped := 0, failed := 0 } rfl⟩

/-- C2: the worker's skip decision follows the source's order: with the
skip-existing flag set and the output present, the item is skipped;
otherwise with the output present and overwrite unset, the item is
skipped; otherwise extraction proceeds and the output file is written.
In both skipped cases the filesystem (hence the pre-existing output file)
is untouched and extraction is never invoked; the final conjunct ties the
instrumented worker back to `process_file` itself. -/
theorem C2_skip_policy (ex : Extractors) (fs : FS) (pdf irt ort : FsPath) (ov sk : Bool)
    (hpre : irt.isPrefixOf pdf = true) (hrel : pdf.drop irt.length ≠ []) :
    (sk = true → fs.fileExists (outputPathFor pdf irt ort) = true →
      process_file_traced ex fs pdf irt ort ov sk = (Outcome.skipped, fs, false)) ∧
    (fs.fileExists (outputPathFor pdf irt ort) = true → ov = false →
      process_file_traced ex fs pdf irt ort ov sk = (Outcome.skipped, fs, false)) ∧
    ((sk && fs.fileExists (outputPathFor pdf irt ort)) = false →
      (fs.fileExists (outputPathFor pdf irt ort) && !ov) = false →
      ∀ t, extract_text ex pdf = Except.ok t →
        process_file_traced ex fs pdf irt ort ov sk =
          (Outcome.success,
            (fs.mkdirParents (outputPathFor pdf irt ort).dropLast).writeText
              (outputPathFor pdf irt ort) t, true) ∧
        ((fs.mkdirParents (outputPathFor pdf irt ort).dropLast).writeText
            (outputPathFor pdf irt ort) t).fileContents (outputPathFor pdf irt ort)
          = some t) ∧
    process_file ex fs pdf irt ort ov sk =
      ((process_file_traced ex fs pdf irt ort ov sk).1,
        (process_file_traced ex fs pdf irt ort ov sk).2.1) := by
  refine ⟨?_, ?_, ?_, process_file_eq_traced ex fs pdf irt ort ov sk⟩
  · intro hsk hex
    subst hsk
    exact process_file_traced_skip_skipExisting ex fs pdf irt ort ov hpre hrel hex
  · intro hex hov
    subst hov
    exact process_file_traced_skip_noOverwrite ex fs pdf irt ort sk hpre hrel hex
  · intro h1 h2 t hok
    exact ⟨process_file_traced_success ex fs pdf irt ort ov sk hpre hrel h1 h2 t hok,
      fileContents_writeText_self _ _ _⟩

/-- C2 witness: with the skip-existing flag set and the output present,
the concrete worker skips, leaves the filesystem untouched and never
invokes extraction. -/
theorem C2_skip_policy_witness :
    process_file_traced exLong fsProcessed ["in", "a.pdf"] ["in"] ["out"] false true
      = (Outcome.skipped, fsProcessed, false) := by
  have h := C2_skip_policy exLong fsProcessed ["in", "a.pdf"] ["in"] ["out"] false true
    (by decide) (by decide)
  exact h.1 rfl (by decide)

/-- C3 counterexample: a work item whose output pre-exists, with
`overwrite = true` but also `skip_existing = true`, is skipped — not the
`Success` the claim promises — and the pre-existing output file keeps its
old contents, even though extraction would have succeeded: the
skip-existing check at the top of the worker precedes the overwrite
check. -/
theorem C3_cex_skipExisting_wins :
    fsProcessed.fileExists (outputPathFor ["in", "a.pdf"] ["in"] ["out"]) = true ∧
    extract_text exLong ["in", "a.pdf"] = Except.ok longText ∧
    (process_file exLong fsProcessed ["in", "a.pdf"] ["in"] ["out"] true true).1
      = Outcome.skipped ∧
    (process_file exLong fsProcessed ["in", "a.pdf"] ["in"] ["out"] true true).1
      ≠ Outcome.success ∧
    (process_file exLong fsProcessed ["in", "a.pdf"] ["in"] ["out"] true true).2
      = fsProcessed := by
  refine ⟨by decide, rfl, by decide, by decide, by decide⟩

/-- C3 (amended): for every work item whose output path pre-exists, whose
overwrite flag is true and whose skip-existing flag is false, absent an
extraction failure the outcome is `success`, afterwards the output file
contains exactly the freshly extracted text, and hence not the prior
content whenever the two differ. -/
theorem C3_overwrite_success (ex : Extractors) (fs : FS) (pdf irt ort : FsPath)
    (t : String)
    (hpre : irt.isPrefixOf pdf = true) (hrel : pdf.drop irt.length ≠ [])
    (hex : fs.fileExists (outputPathFor pdf irt ort) = true)
    (hok : extract_text ex pdf = Except.ok t) :
    (process_file ex fs pdf irt ort true false).1 = Outcome.success ∧
    (process_file ex fs pdf irt ort true false).2.fileContents
        (outputPathFor pdf irt ort) = some t ∧
    (∀ old, fs.fileContents (outputPathFor pdf irt ort) = some old → old ≠ t →
      (process_file ex fs pdf irt ort true false).2.fileContents
          (outputPathFor pdf irt ort) ≠ some old) := by
  have hproc := process_file_success ex fs pdf irt ort true false hpre hrel
    (by simp) (by simp) t hok
  refine ⟨by rw [hproc], ?_, ?_⟩
  · rw [hproc]
    exact fileContents_writeText_self _ _ _
  · intro old hold hne
    rw [hproc, fileContents_writeText_self]
    intro hcontra
    exact hne (Option.some.inj hcontra).symm

/-- C3 witness: with the output pre-existing (old contents `"old"`),
`overwrite = true` and `skip_existing = false`, the concrete worker
succeeds and the output file afterwards holds the freshly extracted text,
no longer the prior content. -/
theorem C3_overwrite_success_witness :
    (process_file exLong fsProcessed ["in", "a.pdf"] ["in"] ["out"] true false).1
      = Outcome.success ∧
    (process_file exLong fsProcessed ["in", "a.pdf"] ["in"] ["out"] true false).2.fileContents
      (outputPathFor ["in", "a.pdf"] ["in"] ["out"]) = some longText ∧
    (process_file exLong fsProcessed ["in", "a.pdf"] ["in"] ["out"] true false).2.fileContents
      (outputPathFor ["in", "a.pdf"] ["in"] ["out"]) ≠ some "old" := by
  have h := C3_overwrite_success exLong fsProcessed ["in", "a.pdf"] ["in"] ["out"] longText
    (by decide) (by decide) (by decide) rfl
  exact ⟨h.1, h.2.1, h.2.2 "old" (by decide) (by decide)⟩

/-- C4: `extract_text` invokes the primary strategy first; the fallback is
invoked, and its result returned verbatim, exactly when the primary output
has stripped length strictly below the 50-character threshold; with a
primary output of stripped length at least 50 the fallback is never
invoked and the primary output is returned unchanged. -/
theorem C4_fallback_policy (ex : Extractors) (p : FsPath) :
    extract_text ex p = (extract_text_traced ex p).1 ∧
    (extract_text_traced ex p).2.head? = some "pymupdf" ∧
    (∀ t, ex.pymupdf p = Except.ok t →
      ((pyStrip t).length < MIN_TEXT_THRESHOLD →
        extract_text ex p = ex.pypdf p ∧
        (extract_text_traced ex p).2 = ["pymupdf", "pypdf"]) ∧
      (MIN_TEXT_THRESHOLD ≤ (pyStrip t).length →
        extract_text ex p = Except.ok t ∧
        (extract_text_traced ex p).2 = ["pymupdf"])) := by
  refine ⟨extract_text_eq_traced ex p, ?_, ?_⟩
  · cases h : ex.pymupdf p <;> simp [extract_text_traced, h]
    split <;> rfl
  · intro t ht
    constructor
    · intro hlt
      constructor
      · simp [extract_text, ht, hlt]
      · simp [extract_text_traced, ht, hlt]
    · intro hge
      have hnlt : ¬((pyStrip t).length < MIN_TEXT_THRESHOLD) := not_lt.2 hge
      constructor
      · simp [extract_text, ht, hnlt]
      · simp [extract_text_traced, ht, hnlt]

/-- C4 witness: a short primary output triggers the fallback, whose output
is returned verbatim, and the trace records both strategies in order. -/
theorem C4_fallback_policy_witness :
    extract_text exFallback ["doc.pdf"] = Except.ok "FALLBACK" ∧
    (extract_text_traced exFallback ["doc.pdf"]).2 = ["pymupdf", "pypdf"] := by
  have h := ((C4_fallback_policy exFallback ["doc.pdf"]).2.2 "hi" rfl).1 (by decide)
  exact ⟨h.1.trans rfl, h.2⟩

/-- C5: `extract_text` never suppresses a strategy's exception (first two
conjuncts: a primary failure propagates; a fallback failure after a short
primary output propagates), the worker converts every such exception into
a `failed` outcome, and a work list in which exactly one item's extraction
fails while all others succeed completes with `failed = 1` and
`success = N - 1`; the drain loop is a total function, so no exception
escapes the run. -/
theorem C5_fault_isolation (ex : Extractors) (irt ort : FsPath) (ov sk : Bool)
    (items : List FsPath) (fs : FS) (bad : FsPath) (e : String)
    (hitems : ∀ p ∈ items, irt.isPrefixOf p = true ∧ p.drop irt.length ≠ [] ∧
      fs.fileExists (outputPathFor p irt ort) = false)
    (hpair : items.Pairwise (fun p q => outputPathFor p irt ort ≠ outputPathFor q irt ort))
    (herr : extract_text ex bad = Except.error e)
    (hok : ∀ p ∈ items, p ≠ bad → ∃ t, extract_text ex p = Except.ok t)
    (hcount : items.count bad = 1) :
    (∀ q msg, ex.pymupdf q = Except.error msg → extract_text ex q = Except.error msg) ∧
    (∀ q t msg, ex.pymupdf q = Except.ok t →
      (pyStrip t).length < MIN_TEXT_THRESHOLD →
      ex.pypdf q = Except.error msg → extract_text ex q = Except.error msg) ∧
    (run_items ex irt ort ov sk items
        ({ total := items.length, success := 0, skipped := 0, failed := 0 }, fs)).1
      = { total := items.length, success := items.length - 1, skipped := 0,
          failed := 1 } := by
  refine ⟨?_, ?_, ?_⟩
  · intro q msg hq
    simp [extract_text, hq]
  · intro q t msg hq hlt hfb
    simp [extract_text, hq, hlt, hfb]
  · rw [run_items_one_failed ex irt ort ov sk bad e herr items fs _ hitems hpair hok hcount]
    simp

/-- C5 witness: two concrete work items, the first of which always fails
to extract, produce `failed = 1, success = 1`. -/
theorem C5_fault_isolation_witness :
    (run_items exOneBad ["in"] ["out"] false false
        [["in", "bad.pdf"], ["in", "good.pdf"]]
        ({ total := 2, success := 0, skipped := 0, failed := 0 }, fsTwoPdf)).1
      = { total := 2, success := 1, skipped := 0, failed := 1 } := by
  have h := C5_fault_isolation exOneBad ["in"] ["out"] false false
    [["in", "bad.pdf"], ["in", "good.pdf"]] fsTwoPdf ["in", "bad.pdf"] "boom"
    (by decide) (by decide) rfl ?hok (by decide)
  case hok =>
    intro p hp hne
    simp only [List.mem_cons, List.not_mem_nil, or_false] at hp
    rcases hp with rfl | rfl
    · exact absurd rfl hne
    · exact ⟨longText, rfl⟩
  exact h.2.2

/-- C6 counterexample: on an empty work list `process_directory` returns
early (printing a notice) without producing any summary — in particular it
does not return the zero-valued summary the claim promises. -/
theorem C6_cex_empty_no_summary :
    (process_directory exErr fsEmpty ["in"] ["out"] 4 false false).1 = none ∧
    (process_directory exErr fsEmpty ["in"] ["out"] 4 false false).1
      ≠ some { total := 0, success := 0, skipped := 0, failed := 0 } := by
  refine ⟨rfl, by decide⟩

/-- C6 (amended): when the resolved work list is empty, `process_directory`
returns early without producing any run summary, without starting any
workers, and with the filesystem untouched. -/
theorem C6_empty_returns_early (ex : Extractors) (fs : FS) (idir odir : FsPath)
    (w : Nat) (ov sk : Bool) (hempty : fs.rglobPdf idir = []) :
    process_directory ex fs idir odir w ov sk = (none, fs) :=
  process_directory_none ex fs idir odir w ov sk hempty

/-- C6 witness: the amended behaviour on a concrete empty tree. -/
theorem C6_empty_returns_early_witness :
    process_directory exErr fsEmpty ["in"] ["out"] 4 false false = (none, fsEmpty) :=
  C6_empty_returns_early exErr fsEmpty ["in"] ["out"] 4 false false rfl

/-- C7 counterexample: in the enterprise script an input root that exists
but is a file, not a directory, is not rejected — `main` checks existence
only, so no fatal configuration error is raised where the claim requires
one. -/
theorem C7_cex_file_root_not_rejected :
    fsInputFile.pathExists ["in"] = true ∧
    fsInputFile.isDir ["in"] = false ∧
    isErr (main exErr fsInputFile (some ["in"]) (some ["out"]) 1 false false) = false :=
  ⟨rfl, rfl, rfl⟩

/-- C7 (amended): the simple script's `process_directory` aborts with a
fatal configuration error exactly when the input root does not exist or is
not a directory; the enterprise script's `main` aborts before any
processing exactly when a required argument is missing or the input root
does not exist — an existing non-directory input root is not rejected
there.  In every other case both return normally. -/
theorem C7_abort_conditions (ex : Extractors) (fs : FS) (idir odir : FsPath)
    (inp outp : Option FsPath) (w : Nat) (ov sk : Bool) :
    (isErr (Simple.process_directory ex fs idir odir)
        = (!fs.pathExists idir || !fs.isDir idir)) ∧
    (isErr (main ex fs inp outp w ov sk)
        = (inp.isNone || outp.isNone || !fs.pathExists (inp.getD []))) := by
  constructor
  · cases h1 : fs.pathExists idir <;> cases h2 : fs.isDir idir <;>
      simp [Simple.process_directory, h1, h2, isErr]
  · cases inp with
    | none => simp [main, isErr]
    | some i =>
      cases outp with
      | none => simp [main, isErr]
      | some o =>
        cases h1 : fs.pathExists i <;> simp [main, h1, isErr]

/-- C10: whenever the worker's outcome is `failed` — in particular when
extraction raised — the filesystem is left entirely unchanged: no write to
the output file happens, because the write occurs only after extraction
succeeds. -/
theorem C10_failed_no_write (ex : Extractors) (fs : FS) (pdf irt ort : FsPath)
    (ov sk : Bool)
    (h : (process_file ex fs pdf irt ort ov sk).1 = Outcome.failed) :
    (process_file ex fs pdf irt ort ov sk).2 = fs := by
  rcases hr : relative_to pdf irt with _ | rel
  · simp [process_file, hr]
  · by_cases h0 : rel = []
    · simp [process_file, hr, h0]
    · rcases hE : extract_text ex pdf with msg | t <;>
        (simp only [process_file, hr] at h ⊢
         rw [if_neg h0] at h ⊢
         split_ifs at h ⊢ <;> simp_all [hE])

/-- C10 witness: a concrete item whose extraction fails yields `failed`
and leaves the filesystem exactly as it was. -/
theorem C10_failed_no_write_witness :
    (process_file exErr fsOnePdf ["in", "a.pdf"] ["in"] ["out"] false false).2
      = fsOnePdf :=
  C10_failed_no_write exErr fsOnePdf ["in", "a.pdf"] ["in"] ["out"] false false (by rfl)

/-- C8: the output path is a deterministic function of the input path —
an input at `root/a/b/doc.pdf` with output root `out` maps to
`out/a/b/doc.txt` (relative path re-rooted, extension replaced) — and on
the success path the worker creates the output file's parent directories
before writing, so the parent directory exists afterwards and the file
holds the extracted text. -/
theorem C8_path_mapping (ex : Extractors) (fs : FS) (irt ort sub : FsPath)
    (stem : String) (t : String) (ov sk : Bool) (hstem : stem ≠ "") :
    outputPathFor (irt ++ (sub ++ [stem ++ ".pdf"])) irt ort
      = ort ++ (sub ++ [stem ++ ".txt"]) ∧
    (fs.fileExists (ort ++ (sub ++ [stem ++ ".txt"])) = false →
      extract_text ex (irt ++ (sub ++ [stem ++ ".pdf"])) = Except.ok t →
      process_file ex fs (irt ++ (sub ++ [stem ++ ".pdf"])) irt ort ov sk =
        (Outcome.success,
          (fs.mkdirParents (ort ++ (sub ++ [stem ++ ".txt"])).dropLast).writeText
            (ort ++ (sub ++ [stem ++ ".txt"])) t) ∧
      ((fs.mkdirParents (ort ++ (sub ++ [stem ++ ".txt"])).dropLast).writeText
          (ort ++ (sub ++ [stem ++ ".txt"])) t).isDir
        (ort ++ (sub ++ [stem ++ ".txt"])).dropLast = true ∧
      ((fs.mkdirParents (ort ++ (sub ++ [stem ++ ".txt"])).dropLast).writeText
          (ort ++ (sub ++ [stem ++ ".txt"])) t).fileContents
        (ort ++ (sub ++ [stem ++ ".txt"])) = some t) := by
  have hmap := outputPathFor_append irt ort sub stem hstem
  refine ⟨hmap, ?_⟩
  intro hex hok
  have hpre : irt.isPrefixOf (irt ++ (sub ++ [stem ++ ".pdf"])) = true :=
    isPrefixOf_append_self _ _
  have hrel : (irt ++ (sub ++ [stem ++ ".pdf"])).drop irt.length ≠ [] := by
    rw [List.drop_left]
    simp
  have hex2 : fs.fileExists (outputPathFor (irt ++ (sub ++ [stem ++ ".pdf"])) irt ort)
      = false := by
    rw [hmap]
    exact hex
  have hproc := process_file_success ex fs (irt ++ (sub ++ [stem ++ ".pdf"])) irt ort ov sk
    hpre hrel (by simp [hex2]) (by simp [hex2]) t hok
  rw [hmap] at hproc
  refine ⟨hproc, ?_, fileContents_writeText_self _ _ _⟩
  rw [isDir_writeText]
  exact isDir_mkdirParents_self fs _

/-- C8 witness: the concrete input `in/a/b/doc.pdf` with output root `out`
maps to `out/a/b/doc.txt`; processing it succeeds and afterwards the
parent directory `out/a/b` exists. -/
theorem C8_path_mapping_witness :
    outputPathFor ["in", "a", "b", "doc.pdf"] ["in"] ["out"]
      = ["out", "a", "b", "doc.txt"] ∧
    (process_file exLong fsEmpty ["in", "a", "b", "doc.pdf"] ["in"] ["out"]
        false false).1 = Outcome.success ∧
    (process_file exLong fsEmpty ["in", "a", "b", "doc.pdf"] ["in"] ["out"]
        false false).2.isDir ["out", "a", "b"] = true := by
  have h := C8_path_mapping exLong fsEmpty ["in"] ["out"] ["a", "b"] "doc" longText
    false false (by decide)
  have h2 := h.2 (by decide) rfl
  have hpf : process_file exLong fsEmpty ["in", "a", "b", "doc.pdf"] ["in"] ["out"]
      false false
      = (Outcome.success,
        (fsEmpty.mkdirParents ["out", "a", "b"]).writeText
          ["out", "a", "b", "doc.txt"] longText) := h2.1
  refine ⟨h.1, ?_, ?_⟩
  · rw [hpf]
  · rw [hpf]
    exact h2.2.1

/-- C9: a second run with `skip_existing = true` over a tree whose every
resolved item's output file already exists produces a summary with
`success = 0`, `failed = 0` and `skipped = total`, and leaves the
filesystem — in particular every output file — unmodified. -/
theorem C9_second_run_idempotent (ex : Extractors) (fs : FS) (idir odir : FsPath)
    (w : Nat) (ov : Bool) (r : RunSummary) (fs2 : FS)
    (hdone : ∀ p ∈ fs.rglobPdf idir,
      fs.fileExists (outputPathFor p idir odir) = true)
    (hrun : process_directory ex fs idir odir w ov true = (some r, fs2)) :
    r.success = 0 ∧ r.failed = 0 ∧ r.skipped = r.total ∧ fs2 = fs := by
  by_cases hempty : fs.rglobPdf idir = []
  · rw [process_directory_none ex fs idir odir w ov true hempty] at hrun
    simp at hrun
  · rw [process_directory_some ex fs idir odir w ov true hempty] at hrun
    rw [run_items_all_skipped ex idir odir ov (fs.rglobPdf idir) fs
      { total := (fs.rglobPdf idir).length, success := 0, skipped := 0, failed := 0 }
      ?hyp] at hrun
    case hyp =>
      intro p hp
      obtain ⟨g1, g2⟩ := rel_of_mem_rglobPdf fs idir p hp
      exact ⟨g1, g2, hdone p hp⟩
    simp only [Prod.mk.injEq, Option.some.injEq] at hrun
    obtain ⟨hr, hfs⟩ := hrun
    subst hr
    subst hfs
    refine ⟨rfl, rfl, by simp, rfl⟩

/-- C9 witness: on a concrete already-processed tree the second run skips
its single item, reports `skipped = total = 1`, and changes nothing. -/
theorem C9_second_run_idempotent_witness :
    process_directory exErr fsProcessed ["in"] ["out"] 4 false true
      = (some { total := 1, success := 0, skipped := 1, failed := 0 }, fsProcessed) ∧
    ({ total := 1, success := 0, skipped := 1, failed := 0 } : RunSummary).skipped
      = ({ total := 1, success := 0, skipped := 1, failed := 0 } : RunSummary).total := by
  have hrun : process_directory exErr fsProcessed ["in"] ["out"] 4 false true
      = (some { total := 1, success := 0, skipped := 1, failed := 0 }, fsProcessed) := by
    rfl
  have h := C9_second_run_idempotent exErr fsProcessed ["in"] ["out"] 4 false
    { total := 1, success := 0, skipped := 1, failed := 0 } fsProcessed (by decide) hrun
  exact ⟨hrun, h.2.2.1⟩

end PdfToText
